import Mathlib

/-!
Verification development for the Feedback repository: a shallow embedding of
`server.js` / `sheetsClient.js` (and the server variants with Telegram routes)
together with theorems about the embedded operations.

The spreadsheet is modelled as a list of rows, each row a list of cell strings.
`JSON.parse` / `JSON.stringify` of the JavaScript runtime are modelled by an
executable JSON value type with a fuel-based parser and a serializer.
Wall-clock time (`new Date(...)` in the Asia/Ho_Chi_Minh zone) is passed in
explicitly as a record of calendar components.
-/

namespace Feedback

/-- JSON values as produced by `JSON.parse` and consumed by `JSON.stringify`.
Numbers keep their source literal, which is all the server ever forwards. -/
inductive Json where
  | null : Json
  | bool (b : Bool) : Json
  | num (lit : String) : Json
  | str (s : String) : Json
  | arr (elems : List Json) : Json
  | obj (fields : List (String × Json)) : Json
deriving Repr

/-- Escape one character the way `JSON.stringify` does. -/
def escapeChar (c : Char) : String :=
  if c = '"' then "\\\""
  else if c = '\\' then "\\\\"
  else if c = '\n' then "\\n"
  else if c = '\t' then "\\t"
  else if c = '\r' then "\\r"
  else if c = (Char.ofNat 8) then "\\b"
  else if c = (Char.ofNat 12) then "\\f"
  else if c.val < 32 then
    let hex := fun (n : Nat) =>
      String.singleton (Char.ofNat (if n < 10 then 48 + n else 87 + n))
    "\\u00" ++ hex (c.toNat / 16) ++ hex (c.toNat % 16)
  else String.singleton c

/-- Serialize a string literal with quotes, as `JSON.stringify` does. -/
def quoteStr (s : String) : String :=
  "\"" ++ String.join (s.toList.map escapeChar) ++ "\""

mutual

/-- Model of `JSON.stringify` on our JSON values. -/
def jsonStringify : Json → String
  | .null => "null"
  | .bool true => "true"
  | .bool false => "false"
  | .num lit => lit
  | .str s => quoteStr s
  | .arr xs => "[" ++ stringifyElems xs ++ "]"
  | .obj fs => "\x7b" ++ stringifyFields fs ++ "\x7d"

def stringifyElems : List Json → String
  | [] => ""
  | [x] => jsonStringify x
  | x :: y :: xs => jsonStringify x ++ "," ++ stringifyElems (y :: xs)

def stringifyFields : List (String × Json) → String
  | [] => ""
  | [(k, v)] => quoteStr k ++ ":" ++ jsonStringify v
  | (k, v) :: f :: fs =>
      quoteStr k ++ ":" ++ jsonStringify v ++ "," ++ stringifyFields (f :: fs)

end

/-- Whitespace for the JavaScript `String.prototype.trim` model. -/
def jsIsWs (c : Char) : Bool :=
  c = ' ' || c = '\t' || c = '\n' || c = '\r' ||
    c.toNat = 11 || c.toNat = 12 || c.toNat = 160 || c.toNat = 65279

/-- Model of `s.trim()` (structural, so that it evaluates in the kernel). -/
def jsTrim (s : String) : String :=
  String.mk (((s.toList.dropWhile jsIsWs).reverse.dropWhile jsIsWs).reverse)

/-- Model of `s.startsWith(p)`. -/
def jsStartsWith (s p : String) : Bool :=
  s.toList.take p.toList.length == p.toList

/-- Model of `s.endsWith(p)`. -/
def jsEndsWith (s p : String) : Bool :=
  s.toList.reverse.take p.toList.length == p.toList.reverse


/-- JSON whitespace, as skipped by `JSON.parse`. -/
def isJsonWs (c : Char) : Bool :=
  c = ' ' || c = '\t' || c = '\n' || c = '\r'

/-- Drop leading JSON whitespace. -/
def skipWs : List Char → List Char
  | [] => []
  | c :: cs => if isJsonWs c then skipWs cs else c :: cs

/-- Hex digit value, if any. -/
def hexVal (c : Char) : Option Nat :=
  if '0' ≤ c ∧ c ≤ '9' then some (c.toNat - 48)
  else if 'a' ≤ c ∧ c ≤ 'f' then some (c.toNat - 87)
  else if 'A' ≤ c ∧ c ≤ 'F' then some (c.toNat - 55)
  else none

/-- Parse the body of a JSON string literal (opening quote already consumed). -/
def parseStrAux : List Char → List Char → Option (String × List Char)
  | _, [] => none
  | acc, '"' :: rest => some (String.mk acc.reverse, rest)
  | acc, '\\' :: rest =>
    match rest with
    | '"' :: r => parseStrAux ('"' :: acc) r
    | '\\' :: r => parseStrAux ('\\' :: acc) r
    | '/' :: r => parseStrAux ('/' :: acc) r
    | 'b' :: r => parseStrAux (Char.ofNat 8 :: acc) r
    | 'f' :: r => parseStrAux (Char.ofNat 12 :: acc) r
    | 'n' :: r => parseStrAux ('\n' :: acc) r
    | 'r' :: r => parseStrAux ('\r' :: acc) r
    | 't' :: r => parseStrAux ('\t' :: acc) r
    | 'u' :: h1 :: h2 :: h3 :: h4 :: r =>
      match hexVal h1, hexVal h2, hexVal h3, hexVal h4 with
      | some a, some b, some c, some d =>
          parseStrAux (Char.ofNat (((a * 16 + b) * 16 + c) * 16 + d) :: acc) r
      | _, _, _, _ => none
    | _ => none
  | acc, c :: rest =>
      if c.toNat < 32 then none else parseStrAux (c :: acc) rest

/-- Lex the digits of a number (at least one required). -/
def lexDigits (cs : List Char) : Option (List Char × List Char) :=
  let ds := cs.takeWhile (fun c => c.isDigit)
  if ds.isEmpty then none else some (ds, cs.drop ds.length)

/-- Lex a JSON numeric literal, returning its verbatim text. -/
def lexNum (cs : List Char) : Option (String × List Char) := do
  let (sign, cs1) := match cs with
    | '-' :: r => (['-'], r)
    | _ => (([] : List Char), cs)
  let (intPart, cs2) ← lexDigits cs1
  let (fracPart, cs3) := match cs2 with
    | '.' :: r =>
      match lexDigits r with
      | some (ds, rest) => ('.' :: ds, rest)
      | none => (([] : List Char), cs2)
    | _ => (([] : List Char), cs2)
  let (expPart, cs4) := match cs3 with
    | e :: r =>
      if e = 'e' ∨ e = 'E' then
        let (sgn, r2) := match r with
          | '+' :: r' => (['+'], r')
          | '-' :: r' => (['-'], r')
          | _ => (([] : List Char), r)
        match lexDigits r2 with
        | some (ds, rest) => (e :: (sgn ++ ds), rest)
        | none => (([] : List Char), cs3)
      else (([] : List Char), cs3)
    | _ => (([] : List Char), cs3)
  some (String.mk (sign ++ intPart ++ fracPart ++ expPart), cs4)

mutual

/-- Fuel-based recursive-descent parser for one JSON value. -/
def parseVal : Nat → List Char → Option (Json × List Char)
  | 0, _ => none
  | fuel + 1, cs =>
    match skipWs cs with
    | 'n' :: 'u' :: 'l' :: 'l' :: rest => some (Json.null, rest)
    | 't' :: 'r' :: 'u' :: 'e' :: rest => some (Json.bool true, rest)
    | 'f' :: 'a' :: 'l' :: 's' :: 'e' :: rest => some (Json.bool false, rest)
    | '"' :: rest =>
      match parseStrAux [] rest with
      | some (s, rest') => some (Json.str s, rest')
      | none => none
    | '[' :: rest =>
      (match skipWs rest with
       | ']' :: rest' => some (Json.arr [], rest')
       | other =>
         match parseElems fuel other with
         | some (xs, rest') => some (Json.arr xs, rest')
         | none => none)
    | '\x7b' :: rest =>
      (match skipWs rest with
       | '\x7d' :: rest' => some (Json.obj [], rest')
       | other =>
         match parseFields fuel other with
         | some (fs, rest') => some (Json.obj fs, rest')
         | none => none)
    | c :: rest =>
      if c = '-' ∨ c.isDigit then
        match lexNum (c :: rest) with
        | some (lit, rest') => some (Json.num lit, rest')
        | none => none
      else none
    | [] => none

/-- Parse one-or-more comma-separated array elements up to `]`. -/
def parseElems : Nat → List Char → Option (List Json × List Char)
  | 0, _ => none
  | fuel + 1, cs => do
    let (x, rest) ← parseVal fuel cs
    match skipWs rest with
    | ',' :: rest' =>
      match parseElems fuel rest' with
      | some (xs, rest'') => some (x :: xs, rest'')
      | none => none
    | ']' :: rest' => some ([x], rest')
    | _ => none

/-- Parse one-or-more comma-separated object members up to the closing brace. -/
def parseFields : Nat → List Char → Option (List (String × Json) × List Char)
  | 0, _ => none
  | fuel + 1, cs =>
    match skipWs cs with
    | '"' :: rest =>
      (match parseStrAux [] rest with
       | some (k, rest1) =>
         (match skipWs rest1 with
          | ':' :: rest2 => do
            let (v, rest3) ← parseVal fuel rest2
            match skipWs rest3 with
            | ',' :: rest4 =>
              match parseFields fuel rest4 with
              | some (fs, rest5) => some ((k, v) :: fs, rest5)
              | none => none
            | '\x7d' :: rest4 => some ([(k, v)], rest4)
            | _ => none
          | _ => none)
       | none => none)
    | _ => none

end

/-- Model of `JSON.parse`: `none` models a thrown `SyntaxError`. -/
def jsonParse (s : String) : Option Json :=
  match parseVal (s.length + 1) s.toList with
  | some (v, rest) => if (skipWs rest).isEmpty then some v else none
  | none => none

/-! ## Spreadsheet state model -/

/-- The sheet: a list of rows (1-based row numbers in the API), each a list of
cell strings. Missing trailing cells read back as `""`. -/
def Sheet := List (List String)

/-- `row[i] || ''`: cell access with the empty-string default. -/
def cellAt (row : List String) (i : Nat) : String := row.getD i ""

/-- Write position `i` of a row, padding with empty cells if the row is short
(a spreadsheet write to a cell beyond the current row extends the row). -/
def setAt (l : List String) (i : Nat) (v : String) : List String :=
  (l ++ List.replicate (i + 1 - l.length) "").set i v

/-- One single-cell write, as issued by `sheetsClient.updateCell(row, col, v)`.
`col` is the zero-based column index (`'F'` ↦ 5, `'H'` ↦ 7, `'O'` ↦ 14). -/
structure CellWrite where
  row : Nat
  col : Nat
  value : String
deriving Repr, DecidableEq

/-- Apply one cell write at a 1-based row number (row `0` cannot occur). -/
def applyWriteAt : Sheet → Nat → Nat → String → Sheet
  | s, 0, _, _ => s
  | s, r + 1, c, v => List.set s r (setAt ((s : List (List String)).getD r []) c v)

/-- Apply one cell write to the sheet (`rowNumber` is 1-based). -/
def applyWrite (s : Sheet) (w : CellWrite) : Sheet :=
  applyWriteAt s w.row w.col w.value

/-- Run the first `n` writes of a batch and then stop: models a sequence of
`await updateCell` calls where the `n+1`-st one throws. Nothing is rolled
back: the state is just the fold of the successful prefix. -/
def applyPrefix (s : Sheet) (ws : List CellWrite) (n : Nat) : Sheet :=
  (ws.take n).foldl applyWrite s

/-- Read a cell back (1-based row, 0-based column, `""` when absent). -/
def getCell (s : Sheet) (r c : Nat) : String :=
  cellAt ((s : List (List String)).getD (r - 1) []) c

/-- `sheetsClient.getRow(rowNumber)`: the cells `A..N` of the row
(`response.data.values ? values[0] : []`). -/
def getRowCells (s : Sheet) (rowNumber : Nat) : List String :=
  ((s : List (List String)).getD (rowNumber - 1) []).take 14

/-! ## `sheetsClient.getAllData` -/

/-- A mapped feedback row, exactly the object literal built in
`SheetsClient.getAllData`. -/
structure FeedbackRow where
  rowNumber : Nat
  deadline : String
  host : String
  shop : String
  link : String
  stage : String
  tags : String
  devNote : String
  imageNote : String
  note : String
  time : String
  message : String
  messageId : String
  imageId : String
  id : String
deriving Repr, DecidableEq

/-- The per-row mapping of `getAllData`: `index` is the zero-based position of
the row among the data rows (`data.slice(2)`). -/
def mapRow (index : Nat) (row : List String) : FeedbackRow :=
  { rowNumber := index + 3
    deadline := cellAt row 0
    host := cellAt row 1
    shop := cellAt row 2
    link := cellAt row 3
    stage := cellAt row 4
    tags := cellAt row 5
    devNote := cellAt row 6
    imageNote := cellAt row 7
    note := cellAt row 8
    time := cellAt row 9
    message := cellAt row 10
    messageId := cellAt row 11
    imageId := cellAt row 12
    id := cellAt row 13 }

/-- `rowsRaw.map((row, index) => ...)` with a running index. -/
def enumRows : Nat → List (List String) → List FeedbackRow
  | _, [] => []
  | i, row :: rest => mapRow i row :: enumRows (i + 1) rest

/-- Keep only rows having a shop or a host (`filter(row => row.shop || row.host)`). -/
def keepRow (r : FeedbackRow) : Bool :=
  decide (r.shop ≠ "" ∨ r.host ≠ "")

/-- `SheetsClient.getAllData` on the raw sheet values: headers and mapped rows. -/
def getAllData (data : List (List String)) : List String × List FeedbackRow :=
  if data.length < 3 then ([], [])
  else (data.getD 0 [], (enumRows 0 (data.drop 2)).filter keepRow)

/-! ## `getDashboardData` -/

/-- Increment the count of key `k` in an association list, appending the key
at the end when new: the JS `obj[k] = (obj[k] || 0) + 1` on a plain object. -/
def bump : List (String × Nat) → String → List (String × Nat)
  | [], k => [(k, 1)]
  | (k', v) :: rest, k =>
      if k' = k then (k', v + 1) :: rest else (k', v) :: bump rest k

/-- One `forEach` pass building a stats object for a non-empty key. -/
def tally (rows : List FeedbackRow) (key : FeedbackRow → String) :
    List (String × Nat) :=
  rows.foldl (fun m r => if key r ≠ "" then bump m (key r) else m) []

/-- Read a count back out of a stats object (`0` when absent). -/
def lookupCount : List (String × Nat) → String → Nat
  | [], _ => 0
  | (k', v) :: rest, k => if k' = k then v else lookupCount rest k

/-- The `forEach` counter `if (row.stage === s) n++`. -/
def countStage (rows : List FeedbackRow) (s : String) : Nat :=
  rows.foldl (fun n r => if r.stage = s then n + 1 else n) 0

/-- `[...new Set(l)]`: deduplicate keeping the first occurrence of each value. -/
def dedupFirst : List String → List String
  | [] => []
  | a :: l => a :: dedupFirst (l.filter (fun x => x ≠ a))
termination_by l => l.length
decreasing_by
  simpa using Nat.lt_succ_of_le (List.length_filter_le _ _)

/-- `[...new Set(l.filter(Boolean))].sort()`. -/
def uniqueSorted (l : List String) : List String :=
  List.insertionSort (· ≤ ·) (dedupFirst (l.filter (fun x => x ≠ "")))

/-- The dashboard payload assembled by `getDashboardData`. -/
structure DashboardData where
  success : Bool
  pending : Nat
  done : Nat
  byHost : List (String × Nat)
  byStage : List (String × Nat)
  hosts : List String
  stages : List String
  feedback : List FeedbackRow
deriving Repr

/-- `getDashboardData`: fetch all rows and compute the derived statistics. -/
def getDashboardData (data : List (List String)) : DashboardData :=
  let rows := (getAllData data).2
  { success := true
    pending := countStage rows "Feedback"
    done := countStage rows "Done"
    byHost := tally rows (fun r => r.host)
    byStage := tally rows (fun r => r.stage)
    hosts := uniqueSorted (rows.map (fun r => r.host))
    stages := uniqueSorted (rows.map (fun r => r.stage))
    feedback := rows }

/-! ## Timestamps (Asia/Ho_Chi_Minh wall clock) -/

/-- The Vietnam wall-clock components read off `vnTime` in the server
(`getDate`, `getMonth()+1`, `getFullYear`, `getHours`, `getMinutes`,
`getSeconds`). -/
structure VnTime where
  day : Nat
  month : Nat
  year : Nat
  hour : Nat
  minute : Nat
  second : Nat
deriving Repr, DecidableEq

/-- `n.toString().padStart(2, '0')`. -/
def pad2 (n : Nat) : String :=
  let s := toString n
  if s.length < 2 then "0" ++ s else s

/-- The timestamp string built (identically) in `createFeedback`,
`updateFeedback`, `updateStage` and `bulkUpdateStage`:
`` `${h}:${min}:${s} ${d}/${m}/${y}` ``. -/
def vnTimestamp (t : VnTime) : String :=
  pad2 t.hour ++ ":" ++ pad2 t.minute ++ ":" ++ pad2 t.second ++ " " ++
    pad2 t.day ++ "/" ++ pad2 t.month ++ "/" ++ toString t.year

/-- The short timestamp `` `${h}:${min} ${d}/${m}/${y}` `` used for comments. -/
def vnTimestampShort (t : VnTime) : String :=
  pad2 t.hour ++ ":" ++ pad2 t.minute ++ " " ++
    pad2 t.day ++ "/" ++ pad2 t.month ++ "/" ++ toString t.year

/-! ## `createFeedback` / `updateFeedback` / stage updates -/

/-- The request's `feedback` object; `none` models an absent property. -/
structure FeedbackInput where
  deadline : Option String := none
  host : Option String := none
  shop : Option String := none
  link : Option String := none
  stage : Option String := none
  tags : Option String := none
  devNote : Option String := none
  note : Option String := none
deriving Repr

/-- JS `x || dflt` on an optional string property: absent and `""` both fall
back to the default. -/
def truthyOr (o : Option String) (dflt : String) : String :=
  match o with
  | none => dflt
  | some s => if s = "" then dflt else s

/-- The row array `A..O` appended by `createFeedback`.  `idStr` stands for
`Date.now().toString()` and `t` for the Vietnam wall clock of the call. -/
def createFeedbackRow (f : FeedbackInput) (idStr : String) (t : VnTime) :
    List String :=
  [ idStr
  , truthyOr f.deadline ""
  , truthyOr f.host ""
  , truthyOr f.shop ""
  , truthyOr f.link ""
  , truthyOr f.stage "Feedback"
  , truthyOr f.tags ""
  , truthyOr f.devNote ""
  , ""
  , truthyOr f.note ""
  , vnTimestamp t
  , truthyOr f.note ""
  , ""
  , ""
  , vnTimestamp t ]

/-- The request's `updates` object for `updateFeedback`; `none` models an
`undefined` property (the code tests `!== undefined`). -/
structure Updates where
  deadline : Option String := none
  host : Option String := none
  shop : Option String := none
  link : Option String := none
  stage : Option String := none
  tags : Option String := none
  devNote : Option String := none
  note : Option String := none
  message : Option String := none
deriving Repr

/-- Apply an optional field update at a fixed column index. -/
def applyUpd (row : List String) (i : Nat) (o : Option String) : List String :=
  match o with
  | none => row
  | some v => row.set i v

/-- The merge step of `updateFeedback`: pad the current row to 15 cells and
apply the defined updates at their column indices (ID, Time untouched). -/
def mergeUpdates (currentRow : List String) (u : Updates) : List String :=
  applyUpd (applyUpd (applyUpd (applyUpd (applyUpd (applyUpd (applyUpd
    (applyUpd (applyUpd (currentRow ++ List.replicate (15 - currentRow.length) "")
      1 u.deadline) 2 u.host) 3 u.shop) 4 u.link) 5 u.stage) 6 u.tags)
        7 u.devNote) 9 u.note) 11 u.message

/-- The merged row written back by `updateFeedback`: merge the updates and
stamp column `O` (index 14) with the fresh timestamp. -/
def updateFeedbackRow (currentRow : List String) (u : Updates) (t : VnTime) :
    List String :=
  (mergeUpdates currentRow u).set 14 (vnTimestamp t)

/-- The two single-cell writes issued by `updateStage`: column `F` (stage)
then column `O` (UpdatedAt). -/
def updateStageWrites (rowNumber : Nat) (newStage : String) (t : VnTime) :
    List CellWrite :=
  [⟨rowNumber, 5, newStage⟩, ⟨rowNumber, 14, vnTimestamp t⟩]

/-- The write sequence issued by `bulkUpdateStage`: per row, stage then
UpdatedAt, with one shared timestamp. -/
def bulkUpdateStageWrites (rowNumbers : List Nat) (newStage : String)
    (t : VnTime) : List CellWrite :=
  rowNumbers.flatMap (fun r => [⟨r, 5, newStage⟩, ⟨r, 14, vnTimestamp t⟩])

/-! ## Comments stored as JSON in cell H -/

/-- A JSON comment object (insertion order `text`, `time`, `author`). -/
def commentObj (text time author : String) : Json :=
  Json.obj [("text", Json.str text), ("time", Json.str time),
            ("author", Json.str author)]

/-- The parse used by `addComment` / `getComments`: a bracketed cell is parsed
as a JSON array (empty on failure or non-array), any other non-empty content
becomes one legacy `Note cũ` comment. -/
def parseCommentsWithLegacy (content : String) : List Json :=
  if content = "" then []
  else if jsStartsWith (jsTrim content) "[" ∧ jsEndsWith (jsTrim content) "]" then
    match jsonParse content with
    | some (Json.arr xs) => xs
    | some _ => []
    | none => []
  else [commentObj content "Note cũ" "System"]

/-- The parse used by `deleteComment`: same, but legacy content is ignored
(no legacy-wrap branch there). -/
def parseCommentsArr (content : String) : List Json :=
  if content = "" then []
  else if jsStartsWith (jsTrim content) "[" ∧ jsEndsWith (jsTrim content) "]" then
    match jsonParse content with
    | some (Json.arr xs) => xs
    | some _ => []
    | none => []
  else []

/-- `addComment(rowNumber, commentText)`: read cell H (index 7) of the row,
parse/wrap its content, append the new `User` comment, write the serialized
list back to cell H, and return the resulting list.  Errors thrown by the
guards are modelled with `Except.error`. -/
def addComment (sheet : Sheet) (rowNumber : Nat) (commentText : String)
    (t : VnTime) : Except String (Sheet × List Json) :=
  if rowNumber = 0 then Except.error "Missing rowNumber"
  else if jsTrim commentText = "" then Except.error "Missing comment text"
  else
    let currentContent := cellAt (getRowCells sheet rowNumber) 7
    let comments := parseCommentsWithLegacy currentContent
    let newComments :=
      comments ++ [commentObj (jsTrim commentText) (vnTimestampShort t) "User"]
    Except.ok
      (applyWrite sheet ⟨rowNumber, 7, jsonStringify (Json.arr newComments)⟩,
       newComments)

/-- `getComments(rowNumber)`. -/
def getComments (sheet : Sheet) (rowNumber : Nat) :
    Except String (List Json) :=
  if rowNumber = 0 then Except.error "Missing rowNumber"
  else Except.ok (parseCommentsWithLegacy (cellAt (getRowCells sheet rowNumber) 7))

/-- The JSON body returned by `deleteComment` in each branch. -/
def deleteCommentBody (ok : Bool) (comments : List Json) : Json :=
  if ok then
    Json.obj [("success", Json.bool true), ("message", Json.str "Deleted comment!"),
              ("comments", Json.arr comments)]
  else
    Json.obj [("success", Json.bool false),
              ("message", Json.str "Invalid comment index")]

/-- `deleteComment(rowNumber, commentIndex)`: splice the comment out and write
the rest back, or report `Invalid comment index` without touching the sheet.
`commentIndex` is an integer so that negative indices are representable. -/
def deleteComment (sheet : Sheet) (rowNumber : Nat) (commentIndex : Int) :
    Except String (Sheet × Json) :=
  if rowNumber = 0 then Except.error "Missing rowNumber"
  else
    let currentContent := cellAt (getRowCells sheet rowNumber) 7
    let comments := parseCommentsArr currentContent
    if 0 ≤ commentIndex ∧ commentIndex < comments.length then
      let newComments := comments.eraseIdx commentIndex.toNat
      Except.ok
        (applyWrite sheet ⟨rowNumber, 7, jsonStringify (Json.arr newComments)⟩,
         deleteCommentBody true newComments)
    else
      Except.ok (sheet, deleteCommentBody false comments)

/-! ## API key middleware and error responses -/

/-- Outcome of a middleware run: fall through to the handlers or short-circuit
with a status and JSON body. -/
inductive MwResult where
  | next : MwResult
  | respond (status : Nat) (body : Json) : MwResult
deriving Repr

/-- The 403 body of the API key middleware. -/
def forbiddenJson : Json :=
  Json.obj [("success", Json.bool false),
            ("message", Json.str "Forbidden: Invalid API Key")]

/-- The `/api` middleware of `server.js`: `validKey` is `process.env.API_KEY`
(`none` = unset) and `apiKey` the `x-api-key` header (`none` = absent).  A
falsy configured key (unset or `""`) disables the check. -/
def apiKeyCheck (validKey apiKey : Option String) : MwResult :=
  match validKey with
  | none => MwResult.next
  | some k =>
      if k = "" then MwResult.next
      else if apiKey = some k then MwResult.next
      else MwResult.respond 403 forbiddenJson

/-- The `/api` middleware of the server variants with Telegram routes: paths
under `/telegram-` (the mount-relative `req.path`) skip the key check. -/
def apiKeyCheckTg (path : String) (validKey apiKey : Option String) :
    MwResult :=
  if jsStartsWith path "/telegram-" then MwResult.next
  else apiKeyCheck validKey apiKey

/-- A request under `/api` composed with the middleware: on `next` the handler
runs against the sheet, otherwise the middleware's response is returned and
the sheet is untouched. -/
def serveApi (validKey apiKey : Option String) (st : Sheet)
    (handler : Sheet → Sheet × Json) : Sheet × (Nat × Json) :=
  match apiKeyCheck validKey apiKey with
  | MwResult.respond s b => (st, (s, b))
  | MwResult.next =>
      let out := handler st
      (out.1, (200, out.2))

/-- The failure JSON `{success:false, message}` of the spec sentence
"log and return a failure JSON". -/
def failureJson (msg : String) : Json :=
  Json.obj [("success", Json.bool false), ("message", Json.str msg)]

/-- The `try/catch` of `POST /api/exec`: the outcome of the action dispatch is
either a result body or a thrown error message. -/
def postExecRespond (outcome : Except String Json) : Json :=
  match outcome with
  | Except.ok body => body
  | Except.error e =>
      Json.obj [("success", Json.bool false), ("message", Json.str e)]

/-- The `try/catch` of `GET /api/exec`. -/
def getExecRespond (outcome : Except String Json) : Json :=
  match outcome with
  | Except.ok body => body
  | Except.error e =>
      Json.obj [("success", Json.bool false), ("message", Json.str e)]

/-- The `try/catch` of `GET /api/telegram-image`. -/
def telegramImageRespond (outcome : Except String Json) : Json :=
  match outcome with
  | Except.ok body => body
  | Except.error e =>
      Json.obj [("success", Json.bool false), ("message", Json.str e)]

/-- The `try/catch` of `POST /api/telegram-webhook` (part_001 / part_003):
the catch logs and replies `{ ok: true }` — "Always return ok to Telegram". -/
def telegramWebhookRespond (outcome : Except String Json) : Json :=
  match outcome with
  | Except.ok body => body
  | Except.error _ => Json.obj [("ok", Json.bool true)]

/-- Field lookup in a JSON object (`none` when absent or not an object). -/
def jsonField (j : Json) (key : String) : Option Json :=
  match j with
  | Json.obj fs => (fs.find? (fun kv => kv.1 = key)).map (fun kv => kv.2)
  | _ => none

/-- Spec-side description (C4): the comment list after `addComment`, written
from the claim's wording — parse a bracketed cell as a JSON array (empty on
parse failure or a non-array), wrap other non-empty content as one legacy
comment, then append the new `User` comment with the trimmed text. -/
def specCommentsAfterAdd (content text : String) (t : VnTime) : List Json :=
  (if content = "" then []
   else if jsStartsWith (jsTrim content) "[" ∧ jsEndsWith (jsTrim content) "]" then
     match jsonParse content with
     | some (Json.arr xs) => xs
     | some _ => []
     | none => []
   else [commentObj content "Note cũ" "System"]) ++
    [commentObj (jsTrim text) (vnTimestampShort t) "User"]

/-! ## Concrete fixtures for closed evaluations -/

/-- A concrete Vietnam wall-clock instant: 22:30:05 on 09/01/2026. -/
def t0 : VnTime := ⟨9, 1, 2026, 22, 30, 5⟩

/-- A concrete feedback submission with every field present. -/
def fbInput0 : FeedbackInput :=
  { deadline := some "01/12/2025"
    host := some "Alice"
    shop := some "ShopX"
    link := some "http://link"
    stage := some "Review"
    tags := some "bug"
    devNote := some "dev"
    note := some "note" }

/-- Sheet values: two header rows followed by the row `createFeedback` appends
for `fbInput0` (ID `"1733000000000"`, clock `t0`). -/
def data0 : List (List String) :=
  [["hdr"], [], createFeedbackRow fbInput0 "1733000000000" t0]

/-- A one-row sheet for stage-update evaluations. -/
def sheet7 : Sheet := [["id", "d", "h", "s", "l", "Feedback"]]

/-- A one-row sheet whose cell H holds a legacy plain-text note. -/
def sheet4 : Sheet := [["a", "b", "c", "d", "e", "f", "g", "old note"]]

/-- A one-row sheet whose cell H holds a JSON comment array. -/
def sheet9 : Sheet := [["", "", "", "", "", "", "", "[\"a\",\"b\"]"]]

/-- Sheet values with three data rows (hosts `A`, `B`, `A`; stages
`Feedback`, `Done`, `Feedback`). -/
def data5 : List (List String) :=
  [["hdr"], [],
   ["", "A", "S1", "", "Feedback"],
   ["", "B", "S2", "", "Done"],
   ["", "A", "S3", "", "Feedback"]]

/-! ## Helper lemmas on the sheet model -/

theorem getD_pad (l : List String) (k j : Nat) :
    (l ++ List.replicate k "").getD j "" = l.getD j "" := by
  rcases Nat.lt_or_ge j l.length with h | h
  · simp [List.getD_eq_getElem?_getD, List.getElem?_append_left h]
  · simp only [List.getD_eq_getElem?_getD, List.getElem?_append_right h,
      List.getElem?_replicate]
    rw [List.getElem?_eq_none h]
    split <;> simp

theorem lt_length_pad (l : List String) (i : Nat) :
    i < (l ++ List.replicate (i + 1 - l.length) "").length := by
  simp only [List.length_append, List.length_replicate]
  omega

theorem getD_setAt_self (l : List String) (i : Nat) (v : String) :
    (setAt l i v).getD i "" = v := by
  simp [setAt, List.getD_eq_getElem?_getD,
    List.getElem?_set_self (lt_length_pad l i)]

theorem getD_setAt_ne (l : List String) {i j : Nat} (h : i ≠ j) (v : String) :
    (setAt l i v).getD j "" = l.getD j "" := by
  simp only [setAt, List.getD_eq_getElem?_getD, List.getElem?_set_ne h]
  simpa [List.getD_eq_getElem?_getD] using getD_pad l (i + 1 - l.length) j

theorem getCell_applyWriteAt_self (s : Sheet) (r c : Nat) (v : String)
    (h1 : 1 ≤ r) (h2 : r ≤ (s : List (List String)).length) :
    getCell (applyWriteAt s r c v) r c = v := by
  cases r with
  | zero => omega
  | succ r =>
    simp only [applyWriteAt, getCell, cellAt, Nat.add_sub_cancel]
    have hrow : (List.set s r (setAt ((s : List (List String)).getD r []) c v)).getD r []
        = setAt ((s : List (List String)).getD r []) c v := by
      rw [List.getD_eq_getElem?_getD,
        List.getElem?_set_self (by omega : r < (s : List (List String)).length)]
      rfl
    rw [hrow]
    exact getD_setAt_self _ c v

theorem getCell_applyWriteAt_ne_col (s : Sheet) (r c c' : Nat) (v : String)
    (h : c ≠ c') : getCell (applyWriteAt s r c v) r c' = getCell s r c' := by
  cases r with
  | zero => rfl
  | succ r =>
    simp only [applyWriteAt, getCell, cellAt, Nat.add_sub_cancel]
    rcases Nat.lt_or_ge r (s : List (List String)).length with hr | hr
    · have hrow : (List.set s r (setAt ((s : List (List String)).getD r []) c v)).getD r []
          = setAt ((s : List (List String)).getD r []) c v := by
        rw [List.getD_eq_getElem?_getD, List.getElem?_set_self hr]
        rfl
      rw [hrow]
      exact getD_setAt_ne _ h v
    · rw [List.set_eq_of_length_le hr]

theorem getCell_applyWriteAt_ne_row (s : Sheet) (r c c' : Nat) (v : String)
    {r' : Nat} (h1 : 1 ≤ r') (h : r' ≠ r) (hr : 1 ≤ r) :
    getCell (applyWriteAt s r c v) r' c' = getCell s r' c' := by
  cases r with
  | zero => rfl
  | succ r =>
    simp only [applyWriteAt, getCell, cellAt]
    rw [List.getD_eq_getElem?_getD, List.getD_eq_getElem?_getD,
      List.getElem?_set_ne (by omega : r ≠ r' - 1)]
    simp [List.getD_eq_getElem?_getD]

/-! ## Helper lemmas on the dashboard statistics -/

theorem mem_dedupFirst {x : String} : ∀ {l : List String},
    x ∈ dedupFirst l ↔ x ∈ l := by
  intro l
  induction l using dedupFirst.induct with
  | case1 => simp [dedupFirst]
  | case2 a l ih =>
    rw [dedupFirst]
    constructor
    · intro hx
      rcases List.mem_cons.mp hx with rfl | hx
      · exact List.mem_cons_self _ _
      · exact List.mem_cons_of_mem _ (List.mem_of_mem_filter (ih.mp hx))
    · intro hx
      rcases List.mem_cons.mp hx with rfl | hx
      · exact List.mem_cons_self _ _
      · by_cases hxa : x = a
        · exact hxa ▸ List.mem_cons_self _ _
        · exact List.mem_cons_of_mem _
            (ih.mpr (List.mem_filter.mpr ⟨hx, by simpa using hxa⟩))

theorem nodup_dedupFirst : ∀ (l : List String), (dedupFirst l).Nodup := by
  intro l
  induction l using dedupFirst.induct with
  | case1 => simp [dedupFirst]
  | case2 a l ih =>
    rw [dedupFirst]
    refine List.nodup_cons.mpr ⟨fun ha => ?_, ih⟩
    have := List.mem_filter.mp (mem_dedupFirst.mp ha)
    simpa using this.2

theorem sorted_uniqueSorted (l : List String) :
    (uniqueSorted l).Sorted (· ≤ ·) :=
  List.sorted_insertionSort _ _

theorem nodup_uniqueSorted (l : List String) : (uniqueSorted l).Nodup :=
  (List.perm_insertionSort _ _).nodup_iff.mpr (nodup_dedupFirst _)

theorem mem_uniqueSorted {l : List String} {x : String} :
    x ∈ uniqueSorted l ↔ x ∈ l ∧ x ≠ "" := by
  rw [uniqueSorted, (List.perm_insertionSort _ _).mem_iff, mem_dedupFirst,
    List.mem_filter]
  simp

theorem lookupCount_bump (m : List (String × Nat)) (k h : String) :
    lookupCount (bump m k) h =
      lookupCount m h + (if k = h then 1 else 0) := by
  induction m with
  | nil => simp [bump, lookupCount]
  | cons kv rest ih =>
    obtain ⟨k', v⟩ := kv
    by_cases hk : k' = k
    · subst hk
      simp only [bump, if_pos rfl, lookupCount]
      split <;> simp
    · simp only [bump, if_neg hk, lookupCount]
      by_cases hh : k' = h
      · subst hh
        have : ¬ k = k' := fun e => hk e.symm
        simp [this]
      · simp [hh, ih]

theorem lookupCount_tally_loop (key : FeedbackRow → String) {h : String}
    (hh : h ≠ "") : ∀ (l : List FeedbackRow) (m : List (String × Nat)),
    lookupCount
        (l.foldl (fun m r => if key r ≠ "" then bump m (key r) else m) m) h =
      lookupCount m h + l.countP (fun r => key r = h) := by
  intro l
  induction l with
  | nil => simp
  | cons r l ih =>
    intro m
    rw [List.foldl_cons, ih, List.countP_cons]
    by_cases hr : key r = ""
    · have h1 : ¬ key r = h := fun e => hh (e ▸ hr)
      have h2 : ¬ ("" = h) := fun e => hh e.symm
      simp [hr, h1, h2]
    · simp only [hr, ne_eq, not_false_eq_true, if_true, lookupCount_bump]
      by_cases he : key r = h <;> simp [he] <;> omega

theorem lookupCount_tally (rows : List FeedbackRow)
    (key : FeedbackRow → String) {h : String} (hh : h ≠ "") :
    lookupCount (tally rows key) h = rows.countP (fun r => key r = h) := by
  rw [tally, lookupCount_tally_loop key hh rows []]
  simp [lookupCount]

theorem countStage_loop (s : String) : ∀ (l : List FeedbackRow) (n : Nat),
    l.foldl (fun n r => if r.stage = s then n + 1 else n) n =
      n + l.countP (fun r => r.stage = s) := by
  intro l
  induction l with
  | nil => simp
  | cons r l ih =>
    intro n
    rw [List.foldl_cons, ih, List.countP_cons]
    by_cases he : r.stage = s <;> simp [he] <;> omega

theorem countStage_eq (rows : List FeedbackRow) (s : String) :
    countStage rows s = rows.countP (fun r => r.stage = s) := by
  simpa using countStage_loop s rows 0

/-! ## Helper lemmas on `getAllData` -/

theorem mem_enumRows {r : FeedbackRow} :
    ∀ {l : List (List String)} {i : Nat},
    r ∈ enumRows i l ↔ ∃ j, j < l.length ∧ r = mapRow (i + j) (l.getD j []) := by
  intro l
  induction l with
  | nil => simp [enumRows]
  | cons row rest ih =>
    intro i
    simp only [enumRows, List.mem_cons, ih]
    constructor
    · rintro (rfl | ⟨j, hj, rfl⟩)
      · exact ⟨0, by simp, by simp [List.getD]⟩
      · exact ⟨j + 1, by simpa using hj,
          by simp [List.getD_cons_succ, Nat.add_assoc, Nat.add_comm 1 j]⟩
    · rintro ⟨j, hj, rfl⟩
      cases j with
      | zero => exact Or.inl (by simp [List.getD])
      | succ j =>
        exact Or.inr ⟨j, by simpa using hj,
          by simp [List.getD_cons_succ, Nat.add_assoc, Nat.add_comm 1 j]⟩

theorem rowNumber_mapRow (i : Nat) (row : List String) :
    (mapRow i row).rowNumber = i + 3 := rfl

/-! ## Further helper lemmas -/

theorem length_applyUpd (row : List String) (i : Nat) (o : Option String) :
    (applyUpd row i o).length = row.length := by
  cases o <;> simp [applyUpd]

theorem lt_length_mergeUpdates (cur : List String) (u : Updates) :
    14 < (mergeUpdates cur u).length := by
  simp only [mergeUpdates, length_applyUpd, List.length_append,
    List.length_replicate]
  omega

theorem updateFeedbackRow_stamp (cur : List String) (u : Updates) (t : VnTime) :
    (updateFeedbackRow cur u t).getD 14 "" = vnTimestamp t := by
  rw [updateFeedbackRow, List.getD_eq_getElem?_getD,
    List.getElem?_set_self (lt_length_mergeUpdates cur u)]
  rfl

theorem bulk_col14_values (rowsN : List Nat) (st : String) (t : VnTime) :
    ((bulkUpdateStageWrites rowsN st t).filter (fun w => w.col = 14)).map
        (fun w => w.value) =
      List.replicate rowsN.length (vnTimestamp t) := by
  induction rowsN with
  | nil => rfl
  | cons r rest ih =>
    simp only [bulkUpdateStageWrites, List.flatMap_cons] at ih ⊢
    simp only [List.cons_append, List.nil_append, List.filter_cons]
    norm_num
    simpa [List.replicate_succ] using ih

/-! ## Claims -/

/-- C2: with `API_KEY` configured (a non-empty value) and a request whose
`x-api-key` header differs from it, the server answers 403 with
`{success:false, message:'Forbidden: Invalid API Key'}` and no handler runs
(the sheet is returned untouched); with `API_KEY` unset every request is
passed through to the handlers. -/
theorem c2_api_key_middleware (k : String) (apiKey : Option String)
    (st : Sheet) (handler : Sheet → Sheet × Json)
    (hk : k ≠ "") (hne : apiKey ≠ some k) :
    serveApi (some k) apiKey st handler = (st, (403, forbiddenJson)) ∧
    ∀ (apiKey' : Option String) (st' : Sheet) (handler' : Sheet → Sheet × Json),
      serveApi none apiKey' st' handler' =
        ((handler' st').1, (200, (handler' st').2)) := by
  constructor
  · simp [serveApi, apiKeyCheck, hk, hne]
  · intro apiKey' st' handler'
    rfl

/-- Witness for C2 at a concrete key, header, sheet and handler. -/
theorem c2_api_key_middleware_witness :
    serveApi (some "secret") none [] (fun s => (s, Json.null)) =
      ([], (403, forbiddenJson)) ∧
    serveApi none none [[]] (fun s => (s, Json.null)) = ([[]], (200, Json.null)) := by
  have h := c2_api_key_middleware "secret" none [] (fun s => (s, Json.null))
    (by decide) (by simp)
  exact ⟨h.1, h.2 none [[]] (fun s => (s, Json.null))⟩

/-- C10: in the server variants with Telegram routes, the `/api` middleware
passes through every request whose (mount-relative) path starts with
`/telegram-` without examining the `x-api-key` header, so the three Telegram
endpoints are reachable with any header value even when `API_KEY` is set. -/
theorem c10_telegram_paths_skip_key (path : String)
    (validKey apiKey : Option String)
    (h : jsStartsWith path "/telegram-" = true) :
    apiKeyCheckTg path validKey apiKey = MwResult.next ∧
    apiKeyCheckTg "/telegram-setup" validKey apiKey = MwResult.next ∧
    apiKeyCheckTg "/telegram-info" validKey apiKey = MwResult.next ∧
    apiKeyCheckTg "/telegram-webhook" validKey apiKey = MwResult.next := by
  refine ⟨?_, ?_, ?_, ?_⟩
  · simp [apiKeyCheckTg, h]
  · simp [apiKeyCheckTg,
      show jsStartsWith "/telegram-setup" "/telegram-" = true from by decide]
  · simp [apiKeyCheckTg,
      show jsStartsWith "/telegram-info" "/telegram-" = true from by decide]
  · simp [apiKeyCheckTg,
      show jsStartsWith "/telegram-webhook" "/telegram-" = true from by decide]

/-- Witness for C10: the webhook path with a configured key and no header. -/
theorem c10_telegram_paths_skip_key_witness :
    apiKeyCheckTg "/telegram-webhook" (some "secret") none = MwResult.next :=
  (c10_telegram_paths_skip_key "/telegram-webhook" (some "secret") none
    (by decide)).1

/-- C3 counterexample: the Telegram webhook endpoint's catch responds
`{ok:true}` on an error — the body has no `success:false` field and is not
the failure JSON with the error's message, refuting the claim for that
endpoint. -/
theorem c3_webhook_catch_not_failure :
    telegramWebhookRespond (Except.error "boom") =
        Json.obj [("ok", Json.bool true)] ∧
    jsonField (telegramWebhookRespond (Except.error "boom")) "success" = none ∧
    ¬ telegramWebhookRespond (Except.error "boom") = failureJson "boom" := by
  refine ⟨rfl, rfl, ?_⟩
  intro h
  have h2 := congrArg (fun j => jsonField j "success") h
  exact Option.noConfusion
    (show (none : Option Json) = some (Json.bool false) from h2)

/-- C3 as amended: on an error the `/api/exec` handlers (POST and GET) and
`/api/telegram-image` respond with the failure JSON carrying the error's
message, while the Telegram webhook endpoint instead responds `{ok:true}`
even on error. -/
theorem c3_error_responses (e : String) :
    postExecRespond (Except.error e) = failureJson e ∧
    getExecRespond (Except.error e) = failureJson e ∧
    telegramImageRespond (Except.error e) = failureJson e ∧
    telegramWebhookRespond (Except.error e) = Json.obj [("ok", Json.bool true)] :=
  ⟨rfl, rfl, rfl, rfl⟩

/-- C1 (code bug): the row appended by `createFeedback` (ID in column A,
deadline in B, host in C, ...) is read back by `getAllData` with every field
taken one column to the left (deadline from A, host from B, ...), so the
create-then-read round trip does not preserve the submitted fields: for the
concrete submission `fbInput0` the dashboard row's `host` is the submitted
deadline, its `stage` is the submitted link, and its `note` is empty. -/
theorem c1_create_then_read_shifts_fields :
    (getAllData data0).2 =
      [mapRow 0 (createFeedbackRow fbInput0 "1733000000000" t0)] ∧
    (mapRow 0 (createFeedbackRow fbInput0 "1733000000000" t0)).deadline =
      "1733000000000" ∧
    (mapRow 0 (createFeedbackRow fbInput0 "1733000000000" t0)).host =
      "01/12/2025" ∧
    ¬ (mapRow 0 (createFeedbackRow fbInput0 "1733000000000" t0)).host = "Alice" ∧
    (mapRow 0 (createFeedbackRow fbInput0 "1733000000000" t0)).shop = "Alice" ∧
    (mapRow 0 (createFeedbackRow fbInput0 "1733000000000" t0)).stage =
      "http://link" ∧
    ¬ (mapRow 0 (createFeedbackRow fbInput0 "1733000000000" t0)).stage =
      "Review" ∧
    (mapRow 0 (createFeedbackRow fbInput0 "1733000000000" t0)).note = "" ∧
    ¬ (mapRow 0 (createFeedbackRow fbInput0 "1733000000000" t0)).note = "note" :=
  ⟨rfl, rfl, rfl, by decide, rfl, rfl, by decide, rfl, by decide⟩


/-- C8: every timestamp written to the Time (K) and UpdatedAt (O) columns by
`createFeedback`, `updateFeedback`, `updateStage` and `bulkUpdateStage` is the
same `HH:mm:ss dd/MM/yyyy` string built from the Asia/Ho_Chi_Minh wall clock
of the call, with hours, minutes, seconds, day and month zero-padded to two
digits. -/
theorem c8_timestamp_format (t : VnTime) (f : FeedbackInput) (idStr : String)
    (cur : List String) (u : Updates) (r : Nat) (st : String)
    (rowsN : List Nat)
    (hh : t.hour < 24) (hmin : t.minute < 60) (hs : t.second < 60)
    (hd1 : 1 ≤ t.day) (hd : t.day ≤ 31) (hm1 : 1 ≤ t.month)
    (hm : t.month ≤ 12) :
    (pad2 t.hour).length = 2 ∧
    (pad2 t.minute).length = 2 ∧
    (pad2 t.second).length = 2 ∧
    (pad2 t.day).length = 2 ∧
    (pad2 t.month).length = 2 ∧
    vnTimestamp t = pad2 t.hour ++ ":" ++ pad2 t.minute ++ ":" ++
      pad2 t.second ++ " " ++ pad2 t.day ++ "/" ++ pad2 t.month ++ "/" ++
      toString t.year ∧
    (createFeedbackRow f idStr t).getD 10 "" = vnTimestamp t ∧
    (createFeedbackRow f idStr t).getD 14 "" = vnTimestamp t ∧
    (updateFeedbackRow cur u t).getD 14 "" = vnTimestamp t ∧
    updateStageWrites r st t = [⟨r, 5, st⟩, ⟨r, 14, vnTimestamp t⟩] ∧
    ((bulkUpdateStageWrites rowsN st t).filter (fun w => w.col = 14)).map
        (fun w => w.value) = List.replicate rowsN.length (vnTimestamp t) := by
  have pl : ∀ n, n < 100 → (pad2 n).length = 2 := by decide
  exact ⟨pl t.hour (by omega), pl t.minute (by omega), pl t.second (by omega),
    pl t.day (by omega), pl t.month (by omega), rfl, rfl, rfl,
    updateFeedbackRow_stamp cur u t, rfl, bulk_col14_values rowsN st t⟩

/-- Witness for C8 at the concrete instant `t0` and concrete operation
arguments. -/
theorem c8_timestamp_format_witness :
    vnTimestamp t0 = "22:30:05 09/01/2026" ∧
    (createFeedbackRow fbInput0 "123" t0).getD 10 "" = "22:30:05 09/01/2026" ∧
    (updateFeedbackRow ["x"] {} t0).getD 14 "" = "22:30:05 09/01/2026" ∧
    updateStageWrites 4 "Done" t0 =
      [⟨4, 5, "Done"⟩, ⟨4, 14, "22:30:05 09/01/2026"⟩] := by
  have h := c8_timestamp_format t0 fbInput0 "123" ["x"] {} 4 "Done" [4, 7]
    (by decide) (by decide) (by decide) (by decide) (by decide) (by decide)
    (by decide)
  obtain ⟨-, -, -, -, -, -, h7, -, h9, h10, -⟩ := h
  have hts : vnTimestamp t0 = "22:30:05 09/01/2026" := by decide
  exact ⟨hts, h7.trans hts, h9.trans hts, h10.trans (by rw [hts])⟩

/-- C7: `updateStage` and `bulkUpdateStage` write the stage (column F) and the
UpdatedAt timestamp (column O) of a row as two separate single-cell writes
with no transaction: when the second (UpdatedAt) write fails after the first
succeeded, the surviving state has the new stage applied (and the old
UpdatedAt), and nothing rolls it back. -/
theorem c7_stage_update_not_transactional (sheet : Sheet) (r : Nat)
    (st : String) (t : VnTime) (rest : List Nat)
    (h1 : 1 ≤ r) (h2 : r ≤ (sheet : List (List String)).length) :
    updateStageWrites r st t = [⟨r, 5, st⟩, ⟨r, 14, vnTimestamp t⟩] ∧
    applyPrefix sheet (updateStageWrites r st t) 1 =
      applyWrite sheet ⟨r, 5, st⟩ ∧
    getCell (applyPrefix sheet (updateStageWrites r st t) 1) r 5 = st ∧
    getCell (applyPrefix sheet (updateStageWrites r st t) 1) r 14 =
      getCell sheet r 14 ∧
    getCell (applyPrefix sheet (bulkUpdateStageWrites (r :: rest) st t) 1) r 5 =
      st ∧
    getCell (applyPrefix sheet (bulkUpdateStageWrites (r :: rest) st t) 1) r 14 =
      getCell sheet r 14 := by
  have eb : applyPrefix sheet (bulkUpdateStageWrites (r :: rest) st t) 1 =
      applyWrite sheet ⟨r, 5, st⟩ := by
    simp [applyPrefix, bulkUpdateStageWrites, List.flatMap_cons]
  have hself : getCell (applyWrite sheet ⟨r, 5, st⟩) r 5 = st :=
    getCell_applyWriteAt_self sheet r 5 st h1 h2
  have hother : getCell (applyWrite sheet ⟨r, 5, st⟩) r 14 = getCell sheet r 14 :=
    getCell_applyWriteAt_ne_col sheet r 5 14 st (by decide)
  exact ⟨rfl, rfl, hself, hother, by rw [eb]; exact hself,
    by rw [eb]; exact hother⟩

/-- Witness for C7: the prefix-failure state on a concrete one-row sheet has
the new stage and the untouched UpdatedAt cell. -/
theorem c7_stage_update_not_transactional_witness :
    getCell (applyPrefix sheet7 (updateStageWrites 1 "Done" t0) 1) 1 5 =
      "Done" ∧
    getCell (applyPrefix sheet7 (updateStageWrites 1 "Done" t0) 1) 1 14 =
      getCell sheet7 1 14 := by
  have h := c7_stage_update_not_transactional sheet7 1 "Done" t0 []
    (by decide) (by decide)
  exact ⟨h.2.2.1, h.2.2.2.1⟩

/-- C6: `getAllData` returns empty headers and rows when the sheet has fewer
than 3 rows; otherwise each returned row carries
`rowNumber = (zero-based position among the data rows) + 3`, is the mapping of
the data row at that position, and rows with neither shop nor host are
dropped while every other data row is kept. -/
theorem c6_getAllData_rows (data : List (List String)) :
    (data.length < 3 → getAllData data = ([], [])) ∧
    (∀ r, r ∈ (getAllData data).2 →
      3 ≤ r.rowNumber ∧
      r.rowNumber - 3 < (data.drop 2).length ∧
      r = mapRow (r.rowNumber - 3) ((data.drop 2).getD (r.rowNumber - 3) []) ∧
      (r.shop ≠ "" ∨ r.host ≠ "")) ∧
    (3 ≤ data.length → ∀ j, j < (data.drop 2).length →
      ((mapRow j ((data.drop 2).getD j [])).shop ≠ "" ∨
        (mapRow j ((data.drop 2).getD j [])).host ≠ "") →
      mapRow j ((data.drop 2).getD j []) ∈ (getAllData data).2) := by
  refine ⟨?_, ?_, ?_⟩
  · intro hlt
    simp [getAllData, hlt]
  · intro r hr
    by_cases hlt : data.length < 3
    · simp [getAllData, hlt] at hr
    · simp only [getAllData, if_neg hlt] at hr
      have hr' := List.mem_filter.mp hr
      obtain ⟨j, hj, hrj⟩ := mem_enumRows.mp hr'.1
      rw [Nat.zero_add] at hrj
      have hrn : r.rowNumber = j + 3 := by rw [hrj]; rfl
      have hkeep : r.shop ≠ "" ∨ r.host ≠ "" := by
        simpa [keepRow] using hr'.2
      refine ⟨by omega, by omega, ?_, hkeep⟩
      rw [show r.rowNumber - 3 = j from by omega]
      exact hrj
  · intro h3 j hj hkeep
    simp only [getAllData, if_neg (by omega : ¬ data.length < 3)]
    refine List.mem_filter.mpr ⟨?_, ?_⟩
    · exact mem_enumRows.mpr ⟨j, hj, by rw [Nat.zero_add]⟩
    · simpa [keepRow] using hkeep

/-- Witness for C6: a short sheet maps to nothing; on `data5` the first data
row (host `A`) is returned. -/
theorem c6_getAllData_rows_witness :
    getAllData [["only"]] = ([], []) ∧
    mapRow 0 ((data5.drop 2).getD 0 []) ∈ (getAllData data5).2 := by
  have ha := c6_getAllData_rows [["only"]]
  have hb := c6_getAllData_rows data5
  exact ⟨ha.1 (by decide), hb.2.2 (by decide) 0 (by decide) (by decide)⟩

/-- C5: dashboard statistics — `pending`/`done` count the returned rows whose
stage is exactly `Feedback`/`Done`; `byHost`/`byStage` count rows per
non-empty host and stage; `filterOptions.hosts`/`stages` are the sorted
deduplicated lists of the non-empty host and stage values of those rows. -/
theorem c5_dashboard_stats (data : List (List String)) (h s : String)
    (hh : h ≠ "") (hs : s ≠ "") :
    (getDashboardData data).feedback = (getAllData data).2 ∧
    (getDashboardData data).pending =
      ((getAllData data).2).countP (fun r => r.stage = "Feedback") ∧
    (getDashboardData data).done =
      ((getAllData data).2).countP (fun r => r.stage = "Done") ∧
    lookupCount (getDashboardData data).byHost h =
      ((getAllData data).2).countP (fun r => r.host = h) ∧
    lookupCount (getDashboardData data).byStage s =
      ((getAllData data).2).countP (fun r => r.stage = s) ∧
    (getDashboardData data).hosts.Sorted (· ≤ ·) ∧
    (getDashboardData data).hosts.Nodup ∧
    (∀ x, x ∈ (getDashboardData data).hosts ↔
      ((∃ r, r ∈ (getAllData data).2 ∧ r.host = x) ∧ x ≠ "")) ∧
    (getDashboardData data).stages.Sorted (· ≤ ·) ∧
    (getDashboardData data).stages.Nodup ∧
    (∀ x, x ∈ (getDashboardData data).stages ↔
      ((∃ r, r ∈ (getAllData data).2 ∧ r.stage = x) ∧ x ≠ "")) := by
  refine ⟨rfl, countStage_eq _ _, countStage_eq _ _,
    lookupCount_tally _ _ hh, lookupCount_tally _ _ hs,
    sorted_uniqueSorted _, nodup_uniqueSorted _, ?_,
    sorted_uniqueSorted _, nodup_uniqueSorted _, ?_⟩
  · intro x
    rw [show (getDashboardData data).hosts =
      uniqueSorted (((getAllData data).2).map (fun r => r.host)) from rfl]
    rw [mem_uniqueSorted, List.mem_map]
  · intro x
    rw [show (getDashboardData data).stages =
      uniqueSorted (((getAllData data).2).map (fun r => r.stage)) from rfl]
    rw [mem_uniqueSorted, List.mem_map]

/-- Witness for C5 on `data5` (hosts `A`, `B`, `A`; stages `Feedback`,
`Done`, `Feedback`). -/
theorem c5_dashboard_stats_witness :
    (getDashboardData data5).pending = 2 ∧
    (getDashboardData data5).done = 1 ∧
    lookupCount (getDashboardData data5).byHost "A" = 2 ∧
    "A" ∈ (getDashboardData data5).hosts := by
  have h := c5_dashboard_stats data5 "A" "Done" (by decide) (by decide)
  obtain ⟨-, hp, hd, hba, -, -, -, hmem, -, -, -⟩ := h
  exact ⟨hp.trans (by decide), hd.trans (by decide), hba.trans (by decide),
    (hmem "A").mpr (by decide)⟩

/-- C4: `addComment(rowNumber, commentText)` reads cell H of the row, parses a
bracketed cell as a JSON array (empty on failure or non-array) or wraps any
other non-empty content as one legacy `Note cũ`/`System` comment, appends the
new comment (trimmed text, author `User`), writes the serialized list back
into the single cell H of the same row, and returns success with the
resulting list. -/
theorem c4_addComment_spec (sheet : Sheet) (rowNumber : Nat) (text : String)
    (t : VnTime) (h0 : rowNumber ≠ 0) (h1 : jsTrim text ≠ "")
    (h2 : rowNumber ≤ (sheet : List (List String)).length) :
    addComment sheet rowNumber text t =
      Except.ok
        (applyWrite sheet ⟨rowNumber, 7, jsonStringify (Json.arr
           (specCommentsAfterAdd (cellAt (getRowCells sheet rowNumber) 7)
             text t))⟩,
         specCommentsAfterAdd (cellAt (getRowCells sheet rowNumber) 7) text t) ∧
    specCommentsAfterAdd (cellAt (getRowCells sheet rowNumber) 7) text t =
      parseCommentsWithLegacy (cellAt (getRowCells sheet rowNumber) 7) ++
        [commentObj (jsTrim text) (vnTimestampShort t) "User"] ∧
    (∀ sh L, addComment sheet rowNumber text t = Except.ok (sh, L) →
      getCell sh rowNumber 7 = jsonStringify (Json.arr L) ∧
      (∀ c', c' ≠ 7 → getCell sh rowNumber c' = getCell sheet rowNumber c') ∧
      (∀ r' c', 1 ≤ r' → r' ≠ rowNumber →
        getCell sh r' c' = getCell sheet r' c')) := by
  have key : addComment sheet rowNumber text t =
      Except.ok
        (applyWrite sheet ⟨rowNumber, 7, jsonStringify (Json.arr
           (specCommentsAfterAdd (cellAt (getRowCells sheet rowNumber) 7)
             text t))⟩,
         specCommentsAfterAdd (cellAt (getRowCells sheet rowNumber) 7) text t) := by
    rw [addComment, if_neg h0, if_neg h1]
    rfl
  refine ⟨key, rfl, ?_⟩
  intro sh L hE
  rw [key] at hE
  have hpair := Except.ok.inj hE
  have hsh : sh = applyWrite sheet ⟨rowNumber, 7, jsonStringify (Json.arr
      (specCommentsAfterAdd (cellAt (getRowCells sheet rowNumber) 7) text t))⟩ :=
    (congrArg Prod.fst hpair).symm
  have hL : L = specCommentsAfterAdd (cellAt (getRowCells sheet rowNumber) 7)
      text t :=
    (congrArg Prod.snd hpair).symm
  subst hsh
  subst hL
  refine ⟨getCell_applyWriteAt_self sheet rowNumber 7 _ (by omega) h2, ?_, ?_⟩
  · intro c' hc'
    exact getCell_applyWriteAt_ne_col sheet rowNumber 7 c' _ (Ne.symm hc')
  · intro r' c' hr1 hrne
    exact getCell_applyWriteAt_ne_row sheet rowNumber 7 c' _ hr1 hrne (by omega)

/-- Witness for C4 on a row whose cell H holds the legacy note `old note`. -/
theorem c4_addComment_spec_witness :
    addComment sheet4 1 " hi " t0 =
      Except.ok
        (applyWrite sheet4 ⟨1, 7, jsonStringify (Json.arr
           (specCommentsAfterAdd "old note" " hi " t0))⟩,
         specCommentsAfterAdd "old note" " hi " t0) ∧
    specCommentsAfterAdd "old note" " hi " t0 =
      [commentObj "old note" "Note cũ" "System",
       commentObj "hi" "22:30 09/01/2026" "User"] ∧
    getCell (applyWrite sheet4 ⟨1, 7, jsonStringify (Json.arr
      (specCommentsAfterAdd "old note" " hi " t0))⟩) 1 0 = "a" := by
  have h := c4_addComment_spec sheet4 1 " hi " t0 (by decide) (by decide)
    (by decide)
  have hframe := (h.2.2 _ _ h.1).2.1 0 (by decide)
  exact ⟨h.1, by rfl, hframe.trans (by rfl)⟩

/-- C9: `deleteComment(rowNumber, commentIndex)` with an index outside
`[0, length)` of the parsed comment list returns
`\x7bsuccess:false, message:'Invalid comment index'\x7d` and performs no write (the
sheet is returned unchanged); with an in-range index it removes exactly the
comment at that index and writes the remaining list back to cell H. -/
theorem c9_deleteComment_spec (sheet : Sheet) (rowNumber : Nat) (idx : Int)
    (h0 : rowNumber ≠ 0) :
    ((idx < 0 ∨
        ((parseCommentsArr (cellAt (getRowCells sheet rowNumber) 7)).length : Int)
          ≤ idx) →
      deleteComment sheet rowNumber idx =
        Except.ok (sheet,
          deleteCommentBody false
            (parseCommentsArr (cellAt (getRowCells sheet rowNumber) 7)))) ∧
    (0 ≤ idx →
      idx < ((parseCommentsArr (cellAt (getRowCells sheet rowNumber) 7)).length : Int) →
      deleteComment sheet rowNumber idx =
        Except.ok
          (applyWrite sheet ⟨rowNumber, 7, jsonStringify (Json.arr
             ((parseCommentsArr (cellAt (getRowCells sheet rowNumber) 7)).eraseIdx
               idx.toNat))⟩,
           deleteCommentBody true
             ((parseCommentsArr (cellAt (getRowCells sheet rowNumber) 7)).eraseIdx
               idx.toNat)) ∧
      (parseCommentsArr (cellAt (getRowCells sheet rowNumber) 7)).eraseIdx
          idx.toNat =
        (parseCommentsArr (cellAt (getRowCells sheet rowNumber) 7)).take
            idx.toNat ++
          (parseCommentsArr (cellAt (getRowCells sheet rowNumber) 7)).drop
            (idx.toNat + 1)) := by
  constructor
  · intro hbad
    have hcond : ¬ (0 ≤ idx ∧ idx <
        ((parseCommentsArr (cellAt (getRowCells sheet rowNumber) 7)).length : Int)) := by
      intro hc
      obtain ⟨hc1, hc2⟩ := hc
      rcases hbad with hb | hb
      · omega
      · omega
    rw [deleteComment, if_neg h0, if_neg hcond]
  · intro hge hlt
    have hcond : 0 ≤ idx ∧ idx <
        ((parseCommentsArr (cellAt (getRowCells sheet rowNumber) 7)).length : Int) :=
      ⟨hge, hlt⟩
    rw [deleteComment, if_neg h0, if_pos hcond]
    exact ⟨rfl, List.eraseIdx_eq_take_drop_succ _ _⟩

/-- Witness for C9 on a row whose cell H holds the array `["a","b"]`:
index 5 is rejected without a write, index 0 removes the first comment. -/
theorem c9_deleteComment_spec_witness :
    deleteComment sheet9 1 5 =
      Except.ok (sheet9,
        deleteCommentBody false (parseCommentsArr "[\"a\",\"b\"]")) ∧
    deleteComment sheet9 1 0 =
      Except.ok
        (applyWrite sheet9 ⟨1, 7, jsonStringify (Json.arr
           ((parseCommentsArr "[\"a\",\"b\"]").eraseIdx 0))⟩,
         deleteCommentBody true ((parseCommentsArr "[\"a\",\"b\"]").eraseIdx 0)) := by
  have h5 := c9_deleteComment_spec sheet9 1 5 (by decide)
  have h0 := c9_deleteComment_spec sheet9 1 0 (by decide)
  exact ⟨h5.1 (Or.inr (by decide)), (h0.2 (by decide) (by decide)).1⟩

end Feedback

